import Mathlib

/-!
Verification of the keyboard-driven text-selection engine of a terminal
console host (source: src/host/selectionInput.cpp).

The data model and the handlers (`HandleKeySelectionEvent`,
`HandleKeyboardLineSelectionEvent`, `WordByWordSelection`,
`HandleColorSelection`, `HandleMarkModeSelectionNav`,
`s_GetInputLineBoundaries`, `GetValidAreaBoundaries`) are translated
directly from the C++ source.  Collaborators that are not part of the
source file (the geometry utilities `Utils::s_*`, the selection lifecycle
sink, clipping, the system-key test) are modelled from the specification
and are marked as such in their doc comments.
-/

/-- A buffer coordinate: column `x`, row `y` (the C++ `COORD`). -/
structure Coord where
  x : Int
  y : Int
deriving DecidableEq, Repr

/-- A rectangle of buffer cells, all edges inclusive (the C++ `SMALL_RECT`). -/
structure SmallRect where
  left : Int
  top : Int
  right : Int
  bottom : Int
deriving DecidableEq, Repr

/-- Per-column glyph-half classification (the `KAttrs` byte of a row):
whether the `ATTR_LEADING_BYTE` and the `ATTR_TRAILING_BYTE` flags are set. -/
structure KAttrs where
  leading : Bool
  trailing : Bool
deriving DecidableEq, Repr

/-- Keyboard event: virtual key code plus modifier state
(the C++ `INPUT_KEY_INFO`). -/
structure KeyInfo where
  vk : Nat
  shift : Bool
  ctrl : Bool
  alt : Bool
deriving DecidableEq, Repr

def KeyInfo.isShiftOnly (k : KeyInfo) : Bool := k.shift && !k.ctrl && !k.alt

def KeyInfo.isShiftAndCtrlOnly (k : KeyInfo) : Bool := k.shift && k.ctrl && !k.alt

/-- The part of the cooked-read (edit line) data the selection code reads. -/
structure CookedReadData where
  originalCursorPosition : Coord
  numberOfVisibleChars : Int
deriving DecidableEq, Repr

/-- Selection state owned by the `Selection` singleton: mode flags, the
anchor and the selection rectangle. -/
structure SelState where
  selecting : Bool
  areaSelected : Bool
  mouseInitiated : Bool
  mouseButtonDown : Bool
  lineSelection : Bool
  useAlternateSelection : Bool
  keyboardMarkSelection : Bool
  visible : Bool
  anchor : Coord
  rect : SmallRect
  savedCursorPosition : Coord
deriving DecidableEq, Repr

/-- The mutable console state a dispatched key event can read and write. -/
structure ConsoleState where
  sel : SelState
  cursor : Coord
  cursorHasMoved : Bool
deriving DecidableEq, Repr

/-- The read-only environment of one dispatched call: screen buffer size,
window height, the per-cell glyph attributes and delimiter classification,
the current legacy color attributes, the cooked-read data and the
color-selection setting. -/
structure Env where
  bufferSize : Coord
  windowSizeY : Int
  kattrAt : Coord → KAttrs
  isDelimAt : Coord → Bool
  legacyAttrs : Nat
  cooked : Option CookedReadData
  enableColorSelection : Bool

/-! Windows virtual key codes used by the handlers. -/

def VK_RETURN : Nat := 13
def VK_SHIFT : Nat := 16
def VK_CONTROL : Nat := 17
def VK_MENU : Nat := 18
def VK_ESCAPE : Nat := 27
def VK_PRIOR : Nat := 33
def VK_NEXT : Nat := 34
def VK_END : Nat := 35
def VK_HOME : Nat := 36
def VK_LEFT : Nat := 37
def VK_UP : Nat := 38
def VK_RIGHT : Nat := 39
def VK_DOWN : Nat := 40
def VK_INSERT : Nat := 45

/-! ## Geometry utilities

These are the `Utils::s_*` helpers.  They are not part of the source file
under verification, so they are modelled from the specification. -/

/-- Modelled from the spec: reading-order coordinate comparison — `A` is
before `B` if `A.row < B.row`, or `A.row == B.row` and
`A.column < B.column`.  Returns a negative value, zero, or a positive
value like the C++ `Utils::s_CompareCoords`. -/
def s_CompareCoords (a b : Coord) : Int :=
  if a.y = b.y then a.x - b.x else a.y - b.y

/-- The coordinate lies inside the (inclusive) edge rectangle. -/
def inBoundsCoord (e : SmallRect) (c : Coord) : Prop :=
  e.left ≤ c.x ∧ c.x ≤ e.right ∧ e.top ≤ c.y ∧ c.y ≤ e.bottom

instance (e : SmallRect) (c : Coord) : Decidable (inBoundsCoord e c) := by
  unfold inBoundsCoord; infer_instance

/-- Modelled from the spec: move one position forward in reading order,
wrapping from the last column of a row to the first column of the next
row; fails (reports failure, point unchanged) at the bottom-right corner
or when the coordinate is outside the edges
(`Utils::s_DoIncrementScreenCoordinate`). -/
def s_DoIncrementScreenCoordinate (e : SmallRect) (c : Coord) : Option Coord :=
  if inBoundsCoord e c then
    if c.x < e.right then some ⟨c.x + 1, c.y⟩
    else if c.y < e.bottom then some ⟨e.left, c.y + 1⟩
    else none
  else none

/-- Modelled from the spec: move one position backward in reading order,
wrapping from the first column of a row to the last column of the previous
row; fails at the top-left corner or outside the edges
(`Utils::s_DoDecrementScreenCoordinate`). -/
def s_DoDecrementScreenCoordinate (e : SmallRect) (c : Coord) : Option Coord :=
  if inBoundsCoord e c then
    if e.left < c.x then some ⟨c.x - 1, c.y⟩
    else if e.top < c.y then some ⟨e.right, c.y - 1⟩
    else none
  else none

/-- Linear (reading-order) index of a coordinate within the edges. -/
def linIdx (e : SmallRect) (c : Coord) : Int :=
  (c.y - e.top) * (e.right - e.left + 1) + (c.x - e.left)

/-- Number of cells of the edge rectangle. -/
def totalCells (e : SmallRect) : Int :=
  (e.right - e.left + 1) * (e.bottom - e.top + 1)

/-- Inverse of `linIdx`: the coordinate with the given reading-order index. -/
def coordOfIdx (e : SmallRect) (i : Int) : Coord :=
  ⟨e.left + i % (e.right - e.left + 1), e.top + i / (e.right - e.left + 1)⟩

/-- Modelled from the spec: translate a coordinate by an offset of
positions in wrapped (reading-order) buffer space, saturating at the
buffer corners (`Utils::s_AddToPosition`). -/
def s_AddToPosition (e : SmallRect) (delta : Int) (c : Coord) : Coord :=
  coordOfIdx e (max 0 (min (totalCells e - 1) (linIdx e c + delta)))

/-- Modelled from the spec: the buffer edge rectangle of the current
screen buffer (`Utils::s_GetCurrentBufferEdges`). -/
def s_GetCurrentBufferEdges (env : Env) : SmallRect :=
  ⟨0, 0, env.bufferSize.x - 1, env.bufferSize.y - 1⟩

/-! ## Boundary validator -/

/-- `Selection::s_GetInputLineBoundaries`, translated from the source:
fails when there is no cooked-read data or no visible characters;
otherwise the start is the recorded original cursor position and the end
is either the live cursor position (when the recorded position is the
negative sentinel) or the start advanced by the visible-character count,
in both cases then moved back one position. -/
def s_GetInputLineBoundaries (env : Env) (cursorPos : Coord) : Option (Coord × Coord) :=
  let e := s_GetCurrentBufferEdges env
  match env.cooked with
  | none => none
  | some d =>
    if d.numberOfVisibleChars ≤ 0 then none
    else
      let coordStart := d.originalCursorPosition
      let coordEnd0 :=
        if d.originalCursorPosition.x < 0 ∧ d.originalCursorPosition.y < 0 then cursorPos
        else s_AddToPosition e d.numberOfVisibleChars d.originalCursorPosition
      let coordEnd := s_AddToPosition e (-1) coordEnd0
      some (coordStart, coordEnd)

/-- `Selection::GetValidAreaBoundaries`, translated from the source:
start is the buffer origin; end is the edit-line end when available,
else the saved cursor position during a keyboard-mark selection, else the
live cursor position. -/
def GetValidAreaBoundaries (env : Env) (st : ConsoleState) : Coord × Coord :=
  let coordEnd :=
    match s_GetInputLineBoundaries env st.cursor with
    | some b => b.2
    | none =>
      if st.sel.selecting && st.sel.keyboardMarkSelection then st.sel.savedCursorPosition
      else st.cursor
  (⟨0, 0⟩, coordEnd)

/-! ## Facts about the geometry steps, used for termination of the scan loop -/

theorem linIdx_bounds {e : SmallRect} {c : Coord} (h : inBoundsCoord e c) :
    0 ≤ linIdx e c ∧ linIdx e c ≤ totalCells e - 1 := by
  obtain ⟨h1, h2, h3, h4⟩ := h
  unfold linIdx totalCells
  have hw : (0 : Int) ≤ e.right - e.left + 1 := by omega
  constructor
  · have hy : (0 : Int) ≤ c.y - e.top := by omega
    have hm := mul_nonneg hy hw
    omega
  · have hy : c.y - e.top ≤ e.bottom - e.top := by omega
    have hm := mul_le_mul_of_nonneg_right hy hw
    have hexp : (e.right - e.left + 1) * (e.bottom - e.top + 1)
        = (e.bottom - e.top) * (e.right - e.left + 1) + (e.right - e.left + 1) := by ring
    linarith

theorem s_DoIncrement_some {e : SmallRect} {c c' : Coord}
    (h : s_DoIncrementScreenCoordinate e c = some c') :
    inBoundsCoord e c' ∧ linIdx e c' = linIdx e c + 1 := by
  unfold s_DoIncrementScreenCoordinate at h
  split at h
  · rename_i hin
    obtain ⟨h1, h2, h3, h4⟩ := hin
    split at h
    · rename_i hx
      cases h
      refine ⟨⟨by dsimp; omega, by dsimp; omega, by dsimp; omega, by dsimp; omega⟩, ?_⟩
      unfold linIdx; dsimp; ring
    · split at h
      · rename_i hx hy
        cases h
        refine ⟨⟨by dsimp; omega, by dsimp; omega, by dsimp; omega, by dsimp; omega⟩, ?_⟩
        unfold linIdx
        dsimp
        rw [(by omega : c.x = e.right)]
        ring
      · cases h
  · cases h

theorem s_DoDecrement_some {e : SmallRect} {c c' : Coord}
    (h : s_DoDecrementScreenCoordinate e c = some c') :
    inBoundsCoord e c' ∧ linIdx e c' = linIdx e c - 1 := by
  unfold s_DoDecrementScreenCoordinate at h
  split at h
  · rename_i hin
    obtain ⟨h1, h2, h3, h4⟩ := hin
    split at h
    · rename_i hx
      cases h
      refine ⟨⟨by dsimp; omega, by dsimp; omega, by dsimp; omega, by dsimp; omega⟩, ?_⟩
      unfold linIdx; dsimp; ring
    · split at h
      · rename_i hx hy
        cases h
        refine ⟨⟨by dsimp; omega, by dsimp; omega, by dsimp; omega, by dsimp; omega⟩, ?_⟩
        unfold linIdx
        dsimp
        rw [(by omega : c.x = e.left)]
        ring
      · cases h
  · cases h

/-! ## Word boundary scanner (`Selection::WordByWordSelection`) -/

/-- One geometry step in the requested scan direction. -/
def stepCoord (fReverse : Bool) (e : SmallRect) (c : Coord) : Option Coord :=
  if fReverse then s_DoDecrementScreenCoordinate e c
  else s_DoIncrementScreenCoordinate e c

theorem stepCoord_some {fReverse : Bool} {e : SmallRect} {c c' : Coord}
    (h : stepCoord fReverse e c = some c') :
    inBoundsCoord e c' ∧
      linIdx e c' = (if fReverse then linIdx e c - 1 else linIdx e c + 1) := by
  unfold stepCoord at h
  cases fReverse
  · simpa using s_DoIncrement_some h
  · simpa using s_DoDecrement_some h

/-- The scan limits of the word-by-word scan: the edit-line boundaries
when they are available, else the buffer corners (translated from the
source, lines 164-177). -/
def wbwScanLimits (env : Env) (cursorPos : Coord) (e : SmallRect) : Coord × Coord :=
  match s_GetInputLineBoundaries env cursorPos with
  | some b => b
  | none => (⟨e.left, e.top⟩, ⟨e.right, e.bottom⟩)

/-- The `do`-`while` scan loop of `WordByWordSelection` (source lines
196-250).  Takes the classification of the character at the current point
(`fPrevIsDelim` at the top of the next iteration) and returns the final
point together with the final value of `fMoveSucceeded`. -/
def wbwLoop (env : Env) (fReverse : Bool) (e : SmallRect)
    (coordMaxLeft coordMaxRight : Coord) (fPrevIsDelim : Bool) (p : Coord) :
    Coord × Bool :=
  if s_CompareCoords p coordMaxLeft = 0 then (p, false)
  else if 0 ≤ s_CompareCoords p coordMaxRight then (p, false)
  else
    match h : stepCoord fReverse e p with
    | none => (p, false)
    | some p1 =>
      let fCurrIsDelim := env.isDelimAt p1
      if (if fReverse then !fPrevIsDelim && fCurrIsDelim
          else fPrevIsDelim && !fCurrIsDelim)
      then (p1, true)
      else wbwLoop env fReverse e coordMaxLeft coordMaxRight fCurrIsDelim p1
termination_by
  if fReverse then (linIdx e p).toNat else (totalCells e - linIdx e p).toNat
decreasing_by
  have hs := stepCoord_some h
  have hb := linIdx_bounds hs.1
  cases fReverse <;> simp_all <;> omega

/-- `Selection::WordByWordSelection`, translated from the source: step
once in the requested direction (ignoring failure), classify the landing
character, compute the scan limits and the un-highlighting flag, run the
scan loop, and step back once when the loop ended with a successful move
while highlighting. -/
def WordByWordSelection (env : Env) (cursorPos : Coord) (fReverse : Bool)
    (e : SmallRect) (coordAnchor p0 : Coord) : Coord :=
  let p1 := match stepCoord fReverse e p0 with
            | some q => q
            | none => p0
  let fCurrIsDelim := env.isDelimAt p1
  let limits := wbwScanLimits env cursorPos e
  let fUnhighlighting :=
    if fReverse then decide (0 < s_CompareCoords p1 coordAnchor)
    else decide (s_CompareCoords p1 coordAnchor < 0)
  let r := wbwLoop env fReverse e limits.1 limits.2 fCurrIsDelim p1
  if r.2 && !fUnhighlighting then
    match stepCoord (!fReverse) e r.1 with
    | some q => q
    | none => r.1
  else r.1

/-! ## Line selection extender (`Selection::HandleKeyboardLineSelectionEvent`) -/

/-- `Selection::s_IsValidKeyboardLineSelection`, translated from the
source: exactly Shift with one of the eight navigation keys, or exactly
Shift+Ctrl with one of six. -/
def s_IsValidKeyboardLineSelection (k : KeyInfo) : Bool :=
  if k.isShiftOnly then
    decide (k.vk = VK_LEFT ∨ k.vk = VK_RIGHT ∨ k.vk = VK_UP ∨ k.vk = VK_DOWN ∨
            k.vk = VK_NEXT ∨ k.vk = VK_PRIOR ∨ k.vk = VK_HOME ∨ k.vk = VK_END)
  else if k.isShiftAndCtrlOnly then
    decide (k.vk = VK_LEFT ∨ k.vk = VK_RIGHT ∨ k.vk = VK_UP ∨ k.vk = VK_DOWN ∨
            k.vk = VK_HOME ∨ k.vk = VK_END)
  else false

/-- The movement computation of `HandleKeyboardLineSelectionEvent`
(the two `switch` statements, source lines 344-577), acting on the
selection point `p`. -/
def lineSelMovePoint (env : Env) (st : ConsoleState) (k : KeyInfo) (p : Coord) : Coord :=
  let e := s_GetCurrentBufferEdges env
  let inputLine := s_GetInputLineBoundaries env st.cursor
  if k.isShiftOnly then
    if k.vk = VK_LEFT then
      match s_DoDecrementScreenCoordinate e p with
      | some q => q
      | none => p
    else if k.vk = VK_RIGHT then
      let p1 := match s_DoIncrementScreenCoordinate e p with
                | some q => q
                | none => p
      if (env.kattrAt p1).trailing then
        match s_DoIncrementScreenCoordinate e p1 with
        | some q => q
        | none => p1
      else p1
    else if k.vk = VK_UP then
      if e.top < p.y then ⟨p.x, p.y - 1⟩ else p
    else if k.vk = VK_DOWN then
      if p.y < e.bottom then ⟨p.x, p.y + 1⟩ else p
    else if k.vk = VK_NEXT then
      let y := p.y + env.windowSizeY
      ⟨p.x, if e.bottom < y then e.bottom else y⟩
    else if k.vk = VK_PRIOR then
      let y := p.y - env.windowSizeY
      ⟨p.x, if y < e.top then e.top else y⟩
    else if k.vk = VK_HOME then
      match inputLine with
      | some b =>
        if 0 < s_CompareCoords p b.1 ∧ b.1.y = p.y then ⟨b.1.x, p.y⟩
        else ⟨0, p.y⟩
      | none => ⟨0, p.y⟩
    else if k.vk = VK_END then
      match inputLine with
      | some b =>
        if 0 ≤ s_CompareCoords p b.1 then
          if b.2.y = p.y ∧ p.x < b.2.x then ⟨b.2.x, p.y⟩
          else ⟨e.right, p.y⟩
        else
          if b.1.y = p.y then
            let sEndOfOutputPos := b.1.x - 1
            if p.x < sEndOfOutputPos then ⟨sEndOfOutputPos, p.y⟩
            else if p.x = sEndOfOutputPos then
              if p.y = b.2.y then ⟨b.2.x, p.y⟩ else ⟨e.right, p.y⟩
            else ⟨e.right, p.y⟩
          else ⟨e.right, p.y⟩
      | none => ⟨e.right, p.y⟩
    else p
  else if k.isShiftAndCtrlOnly then
    if k.vk = VK_LEFT then
      WordByWordSelection env st.cursor true e st.sel.anchor p
    else if k.vk = VK_RIGHT then
      WordByWordSelection env st.cursor false e st.sel.anchor p
    else if k.vk = VK_UP then
      if e.top < p.y then ⟨p.x, p.y - 1⟩ else p
    else if k.vk = VK_DOWN then
      if p.y < e.bottom then ⟨p.x, p.y + 1⟩ else p
    else if k.vk = VK_HOME then
      (GetValidAreaBoundaries env st).1
    else if k.vk = VK_END then
      (GetValidAreaBoundaries env st).2
    else p
  else p

/-- The trailing-half correction applied after every computed line-mode
movement (source lines 579-596): a point on a glyph's trailing half is
moved one position left; if the decrement fails, one position right. -/
def nudgeOffTrailing (env : Env) (e : SmallRect) (p : Coord) : Coord :=
  if (env.kattrAt p).trailing then
    match s_DoDecrementScreenCoordinate e p with
    | some q => q
    | none =>
      match s_DoIncrementScreenCoordinate e p with
      | some q => q
      | none => p
  else p

/-- Modelled from the spec: the selection lifecycle sink's
`ExtendSelection` — the anchor stays fixed, the stored rectangle becomes
the normalized rectangle spanned by the anchor and the new point, and the
selection becomes non-empty and visible. -/
def ExtendSelection (st : ConsoleState) (p : Coord) : ConsoleState :=
  { st with sel := { st.sel with
      rect := ⟨min st.sel.anchor.x p.x, min st.sel.anchor.y p.y,
               max st.sel.anchor.x p.x, max st.sel.anchor.y p.y⟩,
      areaSelected := true,
      visible := true } }

/-- Modelled from the spec: `InitializeMouseSelection` at the cursor
position followed by `_AlignAlternateSelection(true)` and
`ShowSelection()` (the start-a-new-selection path of the line handler) —
a fresh selection anchored at the cursor with a degenerate rectangle,
forced to line-selection mode and shown. -/
def initializeLineSelection (st : ConsoleState) : ConsoleState :=
  { st with sel := { st.sel with
      selecting := true,
      mouseInitiated := true,
      lineSelection := true,
      useAlternateSelection := false,
      visible := true,
      anchor := st.cursor,
      rect := ⟨st.cursor.x, st.cursor.y, st.cursor.x, st.cursor.y⟩ } }

/-- Result of `HandleKeyboardLineSelectionEvent`: rejected, handled by
merely establishing a new selection (the first Shift+Left/Right press), or
handled with `ExtendSelection` called on the given point. -/
inductive LineSelResult where
  | notHandled
  | handledInit
  | handledExtend (p : Coord)
deriving DecidableEq, Repr

/-- The tail of `HandleKeyboardLineSelectionEvent` after the
initialization check: read the selection point from the rectangle corner
opposite the anchor, run the movement switch, apply the trailing-half
correction and extend the selection. -/
def lineSelRest (env : Env) (st : ConsoleState) (k : KeyInfo) :
    LineSelResult × ConsoleState :=
  let coordAnchor := st.sel.anchor
  let rectSelection := st.sel.rect
  let coordSelPoint : Coord :=
    ⟨if coordAnchor.x = rectSelection.left then rectSelection.right else rectSelection.left,
     if coordAnchor.y = rectSelection.top then rectSelection.bottom else rectSelection.top⟩
  let e := s_GetCurrentBufferEdges env
  let moved := lineSelMovePoint env st k coordSelPoint
  let q := nudgeOffTrailing env e moved
  (.handledExtend q, ExtendSelection st q)

/-- `Selection::HandleKeyboardLineSelectionEvent`, translated from the
source: reject invalid combinations; start a new line selection when not
selecting (returning at once for the first Shift+Left/Right); otherwise
compute the movement, correct it off a trailing half and extend. -/
def HandleKeyboardLineSelectionEvent (env : Env) (st : ConsoleState) (k : KeyInfo) :
    LineSelResult × ConsoleState :=
  if !s_IsValidKeyboardLineSelection k then (.notHandled, st)
  else if !st.sel.selecting then
    let st1 := initializeLineSelection st
    if k.isShiftOnly && (decide (k.vk = VK_LEFT) || decide (k.vk = VK_RIGHT)) then
      (.handledInit, st1)
    else lineSelRest env st1 k
  else lineSelRest env st k

/-! ## Color/find selector (`Selection::_HandleColorSelection`) -/

/-- Modelled from the spec: the selection lifecycle sink's
`ClearSelection` — the selection state is emptied: all mode flags reset,
anchor and rectangle cleared. -/
def ClearSelection (st : ConsoleState) : ConsoleState :=
  { st with sel := { st.sel with
      selecting := false,
      areaSelected := false,
      mouseInitiated := false,
      lineSelection := false,
      useAlternateSelection := false,
      keyboardMarkSelection := false,
      visible := false,
      anchor := ⟨0, 0⟩,
      rect := ⟨0, 0, 0, 0⟩ } }

/-- Modelled from the spec: clip a rectangle to the screen buffer
(`SCREEN_INFORMATION::ClipToScreenBuffer`). -/
def ClipToScreenBuffer (env : Env) (r : SmallRect) : SmallRect :=
  ⟨max r.left 0, max r.top 0,
   min r.right (env.bufferSize.x - 1), min r.bottom (env.bufferSize.y - 1)⟩

/-- Modelled from the spec: the fixed maximum length of the extracted
search string (`SEARCH_STRING_LENGTH`). -/
def SEARCH_STRING_LENGTH : Int := 80

/-- The external action requested by the color selector: color the
rectangle directly, or search for the extracted text (of the given
length) and highlight the next match, with the given color attribute. -/
inductive ColorAction where
  | colorSelection (r : SmallRect) (attr : Nat)
  | searchAndColor (len : Int) (attr : Nat)
deriving DecidableEq, Repr

/-- Result of `_HandleColorSelection`: the return value, the requested
external action (if any) and the resulting console state. -/
structure ColorSelResult where
  handled : Bool
  action : Option ColorAction
  state : ConsoleState
deriving DecidableEq, Repr

/-- `Selection::_HandleColorSelection`, translated from the source.
Shift is honored only over a non-empty single-row selection; Ctrl is
ignored when Alt is held; the stored selection rectangle is clipped to
the buffer in place before anything else; with Alt or Ctrl the color
attribute is computed from the digit and the color or find-and-color
action is requested; without either the call is unhandled. -/
def HandleColorSelection (env : Env) (st : ConsoleState) (k : KeyInfo) :
    ColorSelResult :=
  let fAltPressed := k.alt
  let fShiftPressed :=
    if k.shift && (!st.sel.areaSelected || decide (st.sel.rect.top ≠ st.sel.rect.bottom))
    then false else k.shift
  let fCtrlPressed := if fAltPressed then false else k.ctrl
  let rectClipped := ClipToScreenBuffer env st.sel.rect
  let st1 := { st with sel := { st.sel with rect := rectClipped } }
  if fAltPressed || fCtrlPressed then
    let ulAttr0 := k.vk - 48 + 6
    let ulAttr :=
      if fCtrlPressed then ulAttr0 <<< 4
      else ulAttr0 ||| (env.legacyAttrs &&& 0xf0)
    if fShiftPressed then
      let cLength := min (rectClipped.right - rectClipped.left + 1) SEARCH_STRING_LENGTH
      { handled := true,
        action := some (.searchAndColor cLength ulAttr),
        state := ClearSelection st1 }
    else
      { handled := true,
        action := some (.colorSelection rectClipped ulAttr),
        state := ClearSelection st1 }
  else
    { handled := false, action := none, state := st1 }

/-! ## Mark-mode navigator (`Selection::_HandleMarkModeSelectionNav`) -/

/-- The Right step size of mark-mode navigation (source lines 743-751):
2 when the cell under the cursor is a glyph's leading half, else 1. -/
def markNextRightX (env : Env) (c : Coord) : Int :=
  if (env.kattrAt c).leading then 2 else 1

/-- The Left step size of mark-mode navigation (source lines 753-783):
looks back up to two cells; 0 is the initialization value kept at
column 0, where no left movement happens. -/
def markNextLeftX (env : Env) (c : Coord) : Int :=
  if 0 < c.x then
    if (env.kattrAt ⟨c.x - 1, c.y⟩).trailing then 2
    else if (env.kattrAt ⟨c.x - 1, c.y⟩).leading then
      if 0 < c.x - 1 then
        if (env.kattrAt ⟨c.x - 2, c.y⟩).trailing then 3 else 2
      else 1
    else 1
  else 0

/-- The cursor movement of mark-mode navigation (the `switch` of source
lines 785-875), for an already recognized key. -/
def markMoveCursor (env : Env) (st : ConsoleState) (k : KeyInfo) : Coord :=
  let c := st.cursor
  if k.vk = VK_RIGHT then
    if c.x + markNextRightX env c < env.bufferSize.x
    then ⟨c.x + markNextRightX env c, c.y⟩ else c
  else if k.vk = VK_LEFT then
    if 0 < c.x then ⟨c.x - markNextLeftX env c, c.y⟩ else c
  else if k.vk = VK_UP then
    if 0 < c.y then ⟨c.x, c.y - 1⟩ else c
  else if k.vk = VK_DOWN then
    if c.y + 1 < env.bufferSize.y then ⟨c.x, c.y + 1⟩ else c
  else if k.vk = VK_NEXT then
    let y := c.y + (env.windowSizeY - 1)
    ⟨c.x, if env.bufferSize.y ≤ y then env.bufferSize.y - 1 else y⟩
  else if k.vk = VK_PRIOR then
    let y := c.y - (env.windowSizeY - 1)
    ⟨c.x, if y < 0 then 0 else y⟩
  else if k.vk = VK_END then
    let x := env.bufferSize.x - 1
    if k.ctrl then ⟨x, (GetValidAreaBoundaries env st).2.y⟩ else ⟨x, c.y⟩
  else if k.vk = VK_HOME then
    if k.ctrl then ⟨0, 0⟩ else ⟨0, c.y⟩
  else c

/-- `Selection::_HandleMarkModeSelectionNav`, translated from the source:
on a recognized key move the cursor (double-width aware); with Shift held
extend the selection to the cursor (sampling Alt for the alternate mode
when no area is selected yet); without Shift reset the anchor to the
cursor with a degenerate rectangle, hiding and emptying any selected
area, and mark the cursor as moved. -/
def HandleMarkModeSelectionNav (env : Env) (st : ConsoleState) (k : KeyInfo) :
    Bool × ConsoleState :=
  if decide (k.vk = VK_RIGHT) || decide (k.vk = VK_LEFT) || decide (k.vk = VK_UP) ||
     decide (k.vk = VK_DOWN) || decide (k.vk = VK_NEXT) || decide (k.vk = VK_PRIOR) ||
     decide (k.vk = VK_END) || decide (k.vk = VK_HOME) then
    let c1 := markMoveCursor env st k
    let st1 := { st with cursor := c1 }
    if k.shift then
      let st2 :=
        if !st1.sel.areaSelected then
          { st1 with sel := { st1.sel with useAlternateSelection := k.alt } }
        else st1
      (true, ExtendSelection st2 c1)
    else
      let st2 :=
        if st1.sel.areaSelected then
          { st1 with sel := { st1.sel with
              visible := false, areaSelected := false, useAlternateSelection := false } }
        else st1
      (true, { st2 with
          cursorHasMoved := true,
          sel := { st2.sel with
              anchor := c1,
              rect := ⟨c1.x, c1.y, c1.x, c1.y⟩ } })
  else (false, st)

/-! ## Selection event dispatcher (`Selection::HandleKeySelectionEvent`) -/

/-- Modelled from the spec: whether a virtual key is a pure
modifier/system key (`IsSystemKey`). -/
def IsSystemKey (vk : Nat) : Bool :=
  decide (vk = VK_SHIFT ∨ vk = VK_CONTROL ∨ vk = VK_MENU)

/-- Result of the dispatcher (`Selection::KeySelectionEventResult`). -/
inductive KeySelectionEventResult where
  | eventHandled
  | eventNotHandled
  | copyToClipboard
deriving DecidableEq, Repr

/-- The tail of the dispatcher after the escape/copy/color block (source
lines 55-80): route to the mark-mode navigator for keyboard-initiated
selections; for passive mouse selections try the line extender, then
cancel the selection on any non-system key, reporting not handled. -/
def dispatchTail (env : Env) (st : ConsoleState) (k : KeyInfo) :
    KeySelectionEventResult × ConsoleState :=
  if !st.sel.mouseInitiated then
    let r := HandleMarkModeSelectionNav env st k
    if r.1 then (.eventHandled, r.2) else (.eventNotHandled, r.2)
  else if !st.sel.mouseButtonDown then
    let lineTried :=
      if st.sel.lineSelection then
        match HandleKeyboardLineSelectionEvent env st k with
        | (.notHandled, s) => (false, s)
        | (_, s) => (true, s)
      else (false, st)
    if lineTried.1 then (.eventHandled, lineTried.2)
    else if !IsSystemKey k.vk then (.eventNotHandled, ClearSelection lineTried.2)
    else (.eventNotHandled, lineTried.2)
  else (.eventNotHandled, st)

/-- `Selection::HandleKeySelectionEvent`, translated from the source:
with no mouse button down, Escape clears the selection, Enter / Ctrl+C /
Ctrl+Insert request a copy, and an enabled digit key is delegated to the
color selector; then dispatch to mark-mode navigation or line extension. -/
def HandleKeySelectionEvent (env : Env) (st : ConsoleState) (k : KeyInfo) :
    KeySelectionEventResult × ConsoleState :=
  if !st.sel.mouseButtonDown then
    if k.vk = VK_ESCAPE then (.eventHandled, ClearSelection st)
    else if decide (k.vk = VK_RETURN) ||
            (k.ctrl && (decide (k.vk = 67) || decide (k.vk = VK_INSERT))) then
      (.copyToClipboard, st)
    else if env.enableColorSelection && decide (48 ≤ k.vk) && decide (k.vk ≤ 57) then
      let r := HandleColorSelection env st k
      if r.handled then (.eventHandled, r.state)
      else dispatchTail env r.state k
    else dispatchTail env st k
  else dispatchTail env st k

/-! ## Theorems -/

/-- Glyph well-formedness (spec §3): every column classified as a
trailing half has a wrapped predecessor inside the buffer, and that
predecessor (the glyph's leading half) is not itself a trailing half. -/
def TrailingWellFormed (env : Env) : Prop :=
  ∀ c : Coord, (env.kattrAt c).trailing = true →
    ∃ c', s_DoDecrementScreenCoordinate (s_GetCurrentBufferEdges env) c = some c' ∧
          (env.kattrAt c').trailing = false

theorem nudgeOffTrailing_not_trailing {env : Env} (hwf : TrailingWellFormed env)
    (p : Coord) :
    (env.kattrAt (nudgeOffTrailing env (s_GetCurrentBufferEdges env) p)).trailing = false := by
  unfold nudgeOffTrailing
  by_cases ht : (env.kattrAt p).trailing = true
  · obtain ⟨c', hdec, hnt⟩ := hwf p ht
    simp only [ht, if_true, hdec]
    exact hnt
  · simp only [ht, Bool.false_eq_true, if_false]

/-- C1: for every keyboard line-selection extension handled by
`HandleKeyboardLineSelectionEvent`, under the glyph pairing invariant the
selection point passed to `ExtendSelection` is never on a column
classified as a glyph's trailing half: the computed movement is corrected
by `nudgeOffTrailing` (one column left, or one column right when the
decrement fails) before the selection is extended. -/
theorem c1_extend_point_never_trailing (env : Env) (st st' : ConsoleState)
    (k : KeyInfo) (p : Coord) (hwf : TrailingWellFormed env)
    (h : HandleKeyboardLineSelectionEvent env st k = (.handledExtend p, st')) :
    (env.kattrAt p).trailing = false := by
  unfold HandleKeyboardLineSelectionEvent at h
  have hrest : ∀ st0 : ConsoleState, lineSelRest env st0 k = (.handledExtend p, st') →
      (env.kattrAt p).trailing = false := by
    intro st0 h0
    simp only [lineSelRest, Prod.mk.injEq, LineSelResult.handledExtend.injEq] at h0
    rw [← h0.1]
    exact nudgeOffTrailing_not_trailing hwf _
  split at h
  · simp at h
  · split at h
    · split at h
      · simp at h
      · exact hrest _ h
    · exact hrest _ h

def envC1 : Env :=
  { bufferSize := ⟨80, 25⟩
    windowSizeY := 25
    kattrAt := fun _ => ⟨false, false⟩
    isDelimAt := fun _ => false
    legacyAttrs := 7
    cooked := none
    enableColorSelection := false }

def stC1 : ConsoleState :=
  { sel :=
      { selecting := true, areaSelected := true, mouseInitiated := true
        mouseButtonDown := false, lineSelection := true
        useAlternateSelection := false, keyboardMarkSelection := false
        visible := true, anchor := ⟨2, 1⟩, rect := ⟨2, 1, 2, 1⟩
        savedCursorPosition := ⟨0, 0⟩ }
    cursor := ⟨0, 0⟩
    cursorHasMoved := false }

theorem c1_witness : (envC1.kattrAt ⟨3, 1⟩).trailing = false :=
  c1_extend_point_never_trailing envC1 stC1 (ExtendSelection stC1 ⟨3, 1⟩)
    ⟨VK_RIGHT, true, false, false⟩ ⟨3, 1⟩
    (fun c hc => by simp [envC1] at hc)
    (by decide)


/-- C2: after the scan loop, the selection point is stepped back one
position in the opposite direction if and only if the last step succeeded
and the movement is highlighting — for a forward scan the point (after the
initial step) is not left of the anchor, for a reverse scan not right of
it; when un-highlighting no correction is applied. -/
theorem c2_stepback_iff_highlighting (env : Env) (cursorPos : Coord)
    (fReverse : Bool) (e : SmallRect) (anchor p0 : Coord) (p1 : Coord)
    (hp1 : p1 = (match stepCoord fReverse e p0 with
                 | some q => q
                 | none => p0))
    (r : Coord × Bool)
    (hr : r = wbwLoop env fReverse e (wbwScanLimits env cursorPos e).1
                (wbwScanLimits env cursorPos e).2 (env.isDelimAt p1) p1) :
    (r.2 = true ∧ (if fReverse then ¬(0 < s_CompareCoords p1 anchor)
                   else ¬(s_CompareCoords p1 anchor < 0)) →
      WordByWordSelection env cursorPos fReverse e anchor p0 =
        (match stepCoord (!fReverse) e r.1 with
         | some q => q
         | none => r.1))
    ∧ ((r.2 = false ∨ ¬(if fReverse then ¬(0 < s_CompareCoords p1 anchor)
                        else ¬(s_CompareCoords p1 anchor < 0))) →
      WordByWordSelection env cursorPos fReverse e anchor p0 = r.1) := by
  constructor
  · rintro ⟨hm, hh⟩
    have hu : (if fReverse then decide (0 < s_CompareCoords p1 anchor)
               else decide (s_CompareCoords p1 anchor < 0)) = false := by
      cases fReverse <;> simp_all
    simp only [WordByWordSelection]
    rw [← hp1, ← hr]
    simp [hm, hu]
  · intro hcase
    simp only [WordByWordSelection]
    rw [← hp1, ← hr]
    rcases hcase with hm | hh
    · simp [hm]
    · have hu : (if fReverse then decide (0 < s_CompareCoords p1 anchor)
                 else decide (s_CompareCoords p1 anchor < 0)) = true := by
        cases fReverse <;> simp_all
      simp [hu]

theorem c2_witness :
    WordByWordSelection envC1 ⟨0, 0⟩ false ⟨0, 0, 79, 24⟩ ⟨79, 24⟩ ⟨5, 0⟩ =
      (wbwLoop envC1 false ⟨0, 0, 79, 24⟩ (wbwScanLimits envC1 ⟨0, 0⟩ ⟨0, 0, 79, 24⟩).1
        (wbwScanLimits envC1 ⟨0, 0⟩ ⟨0, 0, 79, 24⟩).2 (envC1.isDelimAt ⟨6, 0⟩) ⟨6, 0⟩).1 :=
  (c2_stepback_iff_highlighting envC1 ⟨0, 0⟩ false ⟨0, 0, 79, 24⟩ ⟨79, 24⟩ ⟨5, 0⟩
    ⟨6, 0⟩ (by decide) _ rfl).2 (Or.inr (by decide))


theorem wbwLoop_stop_left {env : Env} {fReverse : Bool} {e : SmallRect}
    {mL mR : Coord} {d : Bool} {p : Coord} (hl : s_CompareCoords p mL = 0) :
    wbwLoop env fReverse e mL mR d p = (p, false) := by
  unfold wbwLoop
  rw [if_pos hl]

theorem wbwLoop_stop_right {env : Env} {fReverse : Bool} {e : SmallRect}
    {mL mR : Coord} {d : Bool} {p : Coord} (hl : ¬s_CompareCoords p mL = 0)
    (hr : 0 ≤ s_CompareCoords p mR) :
    wbwLoop env fReverse e mL mR d p = (p, false) := by
  unfold wbwLoop
  rw [if_neg hl, if_pos hr]

theorem wbwLoop_stop_fail {env : Env} {fReverse : Bool} {e : SmallRect}
    {mL mR : Coord} {d : Bool} {p : Coord} (hl : ¬s_CompareCoords p mL = 0)
    (hr : ¬0 ≤ s_CompareCoords p mR) (hs : stepCoord fReverse e p = none) :
    wbwLoop env fReverse e mL mR d p = (p, false) := by
  unfold wbwLoop
  rw [if_neg hl, if_neg hr]
  split
  · rfl
  · rename_i p1 heq
    rw [hs] at heq
    cases heq

theorem wbwLoop_step_trans {env : Env} {fReverse : Bool} {e : SmallRect}
    {mL mR : Coord} {d : Bool} {p p1 : Coord} (hl : ¬s_CompareCoords p mL = 0)
    (hr : ¬0 ≤ s_CompareCoords p mR) (hs : stepCoord fReverse e p = some p1)
    (ht : (if fReverse then !d && env.isDelimAt p1
           else d && !env.isDelimAt p1) = true) :
    wbwLoop env fReverse e mL mR d p = (p1, true) := by
  unfold wbwLoop
  rw [if_neg hl, if_neg hr]
  split
  · rename_i heq
    rw [hs] at heq
    cases heq
  · rename_i p2 heq
    rw [hs] at heq
    injection heq with heq2
    subst heq2
    simp only [ht, if_true]

theorem wbwLoop_step_cont {env : Env} {fReverse : Bool} {e : SmallRect}
    {mL mR : Coord} {d : Bool} {p p1 : Coord} (hl : ¬s_CompareCoords p mL = 0)
    (hr : ¬0 ≤ s_CompareCoords p mR) (hs : stepCoord fReverse e p = some p1)
    (ht : (if fReverse then !d && env.isDelimAt p1
           else d && !env.isDelimAt p1) = false) :
    wbwLoop env fReverse e mL mR d p =
      wbwLoop env fReverse e mL mR (env.isDelimAt p1) p1 := by
  conv_lhs => unfold wbwLoop
  rw [if_neg hl, if_neg hr]
  split
  · rename_i heq
    rw [hs] at heq
    cases heq
  · rename_i p2 heq
    rw [hs] at heq
    injection heq with heq2
    subst heq2
    simp only [ht, Bool.false_eq_true, if_false]

theorem wbwLoop_fst_mono (env : Env) (fReverse : Bool) (e : SmallRect)
    (mL mR : Coord) (d : Bool) (p : Coord) :
    if fReverse then linIdx e (wbwLoop env fReverse e mL mR d p).1 ≤ linIdx e p
    else linIdx e p ≤ linIdx e (wbwLoop env fReverse e mL mR d p).1 := by
  induction d, p using wbwLoop.induct env fReverse e mL mR with
  | case1 d p h1 =>
    rw [wbwLoop_stop_left h1]
    split <;> exact le_refl _
  | case2 d p h1 h2 =>
    rw [wbwLoop_stop_right h1 h2]
    split <;> exact le_refl _
  | case3 d p h1 h2 h3 =>
    rw [wbwLoop_stop_fail h1 h2 h3]
    split <;> exact le_refl _
  | case4 d p h1 h2 p1 h3 fc h4 =>
    have hs := stepCoord_some h3
    have h4a : (if fReverse then !d && env.isDelimAt p1
        else d && !env.isDelimAt p1) = true := by
      simpa [dite_eq_ite] using h4
    rw [wbwLoop_step_trans h1 h2 h3 h4a]
    cases fReverse <;> simp_all <;> omega
  | case5 d p h1 h2 p1 h3 fc h4 ih =>
    have hs := stepCoord_some h3
    have h4a : (if fReverse then !d && env.isDelimAt p1
        else d && !env.isDelimAt p1) = false := by
      refine Bool.eq_false_iff.mpr ?_
      simp only [dite_eq_ite] at h4
      exact h4
    have ih2 : if fReverse
        then linIdx e (wbwLoop env fReverse e mL mR (env.isDelimAt p1) p1).1 ≤ linIdx e p1
        else linIdx e p1 ≤ linIdx e (wbwLoop env fReverse e mL mR (env.isDelimAt p1) p1).1 := ih
    rw [wbwLoop_step_cont h1 h2 h3 h4a]
    clear ih h4
    cases fReverse <;> simp_all <;> omega

/-- C3: the scan loop stops immediately (point unchanged, move flag
false, so the step-back correction is skipped) exactly when the point
equals the left scan limit, compares at or past the right scan limit in
reading order, or the step fails at the buffer edge; and the scan limits
are the edit-line boundaries when available, else the buffer corners. -/
theorem c3_scan_stop_conditions (env : Env) (cursorPos : Coord) (fReverse : Bool)
    (e : SmallRect) (mL mR : Coord) (d : Bool) (p anchor p0 : Coord) :
    (wbwLoop env fReverse e mL mR d p = (p, false) ↔
      (s_CompareCoords p mL = 0 ∨ 0 ≤ s_CompareCoords p mR ∨
       stepCoord fReverse e p = none))
    ∧ (wbwScanLimits env cursorPos e =
        match s_GetInputLineBoundaries env cursorPos with
        | some b => b
        | none => (⟨e.left, e.top⟩, ⟨e.right, e.bottom⟩))
    ∧ (∀ p1 r, p1 = (match stepCoord fReverse e p0 with
                     | some q => q
                     | none => p0) →
        r = wbwLoop env fReverse e (wbwScanLimits env cursorPos e).1
              (wbwScanLimits env cursorPos e).2 (env.isDelimAt p1) p1 →
        r.2 = false →
        WordByWordSelection env cursorPos fReverse e anchor p0 = r.1) := by
  refine ⟨⟨?_, ?_⟩, rfl, ?_⟩
  · intro hres
    by_contra hc
    push_neg at hc
    obtain ⟨hc1, hc2, hc3⟩ := hc
    obtain ⟨p1, hstep⟩ := Option.ne_none_iff_exists.mp hc3
    rcases Bool.eq_false_or_eq_true
        (if fReverse then !d && env.isDelimAt p1 else d && !env.isDelimAt p1) with ht | ht
    · rw [wbwLoop_step_trans hc1 (not_le.mpr hc2) hstep.symm ht] at hres
      simp at hres
    · rw [wbwLoop_step_cont hc1 (not_le.mpr hc2) hstep.symm ht] at hres
      have hmono := wbwLoop_fst_mono env fReverse e mL mR (env.isDelimAt p1) p1
      have hs := stepCoord_some hstep.symm
      rw [hres] at hmono
      cases fReverse <;> simp_all <;> omega
  · intro hcond
    by_cases hl : s_CompareCoords p mL = 0
    · exact wbwLoop_stop_left hl
    · by_cases hr : 0 ≤ s_CompareCoords p mR
      · exact wbwLoop_stop_right hl hr
      · rcases hcond with h | h | h
        · exact absurd h hl
        · exact absurd h hr
        · exact wbwLoop_stop_fail hl hr h
  · intro p1 r hp1 hr h2
    subst hp1
    subst hr
    simp only [WordByWordSelection]
    rw [h2]
    simp

theorem c3_witness :
    wbwLoop envC1 false ⟨0, 0, 79, 24⟩ ⟨0, 0⟩ ⟨79, 24⟩ false ⟨0, 0⟩ = (⟨0, 0⟩, false) :=
  (c3_scan_stop_conditions envC1 ⟨0, 0⟩ false ⟨0, 0, 79, 24⟩ ⟨0, 0⟩ ⟨79, 24⟩ false
    ⟨0, 0⟩ ⟨0, 0⟩ ⟨0, 0⟩).1.mpr (Or.inl (by decide))

def envC4 : Env :=
  { bufferSize := ⟨80, 300⟩
    windowSizeY := 25
    kattrAt := fun _ => ⟨false, false⟩
    isDelimAt := fun _ => false
    legacyAttrs := 7
    cooked := some ⟨⟨4, 10⟩, 12⟩
    enableColorSelection := false }

def stC4 : ConsoleState :=
  { sel :=
      { selecting := true, areaSelected := true, mouseInitiated := true
        mouseButtonDown := false, lineSelection := true
        useAlternateSelection := false, keyboardMarkSelection := false
        visible := true, anchor := ⟨8, 10⟩, rect := ⟨8, 10, 8, 10⟩
        savedCursorPosition := ⟨0, 0⟩ }
    cursor := ⟨16, 10⟩
    cursorHasMoved := false }

/-- C4: for Shift+Home in line selection, the selection point's column
becomes the edit-line start column exactly when the boundaries are
available, the point is strictly past the edit-line start in reading
order and on the start's row; in every other case the column becomes 0,
the row never changing.  In the concrete scenario (edit line at columns
4-15 of row 10, point at column 8 of row 10) the first Shift+Home lands
on column 4 and the second on column 0. -/
theorem c4_shift_home (env : Env) (st : ConsoleState) (p : Coord) :
    (∀ b, s_GetInputLineBoundaries env st.cursor = some b →
      lineSelMovePoint env st ⟨VK_HOME, true, false, false⟩ p =
        (if 0 < s_CompareCoords p b.1 ∧ b.1.y = p.y then ⟨b.1.x, p.y⟩
         else ⟨0, p.y⟩))
    ∧ (s_GetInputLineBoundaries env st.cursor = none →
      lineSelMovePoint env st ⟨VK_HOME, true, false, false⟩ p = ⟨0, p.y⟩)
    ∧ (HandleKeyboardLineSelectionEvent envC4 stC4
        ⟨VK_HOME, true, false, false⟩).1 = .handledExtend ⟨4, 10⟩
    ∧ (HandleKeyboardLineSelectionEvent envC4
        (HandleKeyboardLineSelectionEvent envC4 stC4 ⟨VK_HOME, true, false, false⟩).2
        ⟨VK_HOME, true, false, false⟩).1 = .handledExtend ⟨0, 10⟩ := by
  refine ⟨?_, ?_, by decide, by decide⟩
  · intro b hb
    simp [lineSelMovePoint, KeyInfo.isShiftOnly, hb, VK_HOME, VK_LEFT, VK_RIGHT,
      VK_UP, VK_DOWN, VK_NEXT, VK_PRIOR]
  · intro hb
    simp [lineSelMovePoint, KeyInfo.isShiftOnly, hb, VK_HOME, VK_LEFT, VK_RIGHT,
      VK_UP, VK_DOWN, VK_NEXT, VK_PRIOR]

theorem c4_witness :
    lineSelMovePoint envC4 stC4 ⟨VK_HOME, true, false, false⟩ ⟨8, 10⟩ =
      (if 0 < s_CompareCoords ⟨8, 10⟩ (⟨4, 10⟩ : Coord) ∧ (⟨4, 10⟩ : Coord).y = (⟨8, 10⟩ : Coord).y
       then ⟨(⟨4, 10⟩ : Coord).x, (⟨8, 10⟩ : Coord).y⟩ else ⟨0, (⟨8, 10⟩ : Coord).y⟩) :=
  (c4_shift_home envC4 stC4 ⟨8, 10⟩).1 (⟨4, 10⟩, ⟨15, 10⟩) (by decide)

def envC5 : Env :=
  { bufferSize := ⟨80, 300⟩
    windowSizeY := 25
    kattrAt := fun _ => ⟨false, false⟩
    isDelimAt := fun _ => false
    legacyAttrs := 7
    cooked := some ⟨⟨-1, -1⟩, 5⟩
    enableColorSelection := false }

/-- C5 counterexample: with the sentinel original cursor position and the
live cursor at column 10 of row 3, the end coordinate returned is (9,3) —
the cursor moved back one position — and not the live cursor position
(10,3) the claim states. -/
theorem c5_counterexample :
    s_GetInputLineBoundaries envC5 ⟨10, 3⟩ = some (⟨-1, -1⟩, ⟨9, 3⟩) ∧
    (⟨9, 3⟩ : Coord) ≠ (⟨10, 3⟩ : Coord) := by decide

/-- C5 amended: when the recorded original cursor position is the
negative sentinel, the end coordinate returned is the live cursor
position moved back one position in wrapped buffer space; when the
recorded start is valid, the end is the start advanced by the
visible-character count and then moved back one position. -/
theorem c5_amended (env : Env) (cursorPos : Coord) (d : CookedReadData)
    (hc : env.cooked = some d) (hn : 0 < d.numberOfVisibleChars) :
    (d.originalCursorPosition.x < 0 ∧ d.originalCursorPosition.y < 0 →
      s_GetInputLineBoundaries env cursorPos =
        some (d.originalCursorPosition,
          s_AddToPosition (s_GetCurrentBufferEdges env) (-1) cursorPos))
    ∧ (¬(d.originalCursorPosition.x < 0 ∧ d.originalCursorPosition.y < 0) →
      s_GetInputLineBoundaries env cursorPos =
        some (d.originalCursorPosition,
          s_AddToPosition (s_GetCurrentBufferEdges env) (-1)
            (s_AddToPosition (s_GetCurrentBufferEdges env)
              d.numberOfVisibleChars d.originalCursorPosition))) := by
  constructor
  · intro hsent
    simp [s_GetInputLineBoundaries, hc, hsent, not_le.mpr hn]
  · intro hsent
    simp [s_GetInputLineBoundaries, hc, hsent, not_le.mpr hn]

theorem c5_witness :
    s_GetInputLineBoundaries envC5 ⟨10, 3⟩ =
      some ((⟨⟨-1, -1⟩, 5⟩ : CookedReadData).originalCursorPosition,
        s_AddToPosition (s_GetCurrentBufferEdges envC5) (-1) ⟨10, 3⟩) :=
  (c5_amended envC5 ⟨10, 3⟩ ⟨⟨-1, -1⟩, 5⟩ rfl (by decide)).1 (by decide)

/-- Definition following claim C6's wording for the Left step size: 2
when the cell immediately left of the cursor is a trailing half, 3 when
the cell immediately left is a leading half and the cell two to the left
is a trailing half, and 1 in all other positions. -/
def c6ClaimLeftStep (env : Env) (c : Coord) : Int :=
  if (env.kattrAt ⟨c.x - 1, c.y⟩).trailing then 2
  else if (env.kattrAt ⟨c.x - 1, c.y⟩).leading ∧ (env.kattrAt ⟨c.x - 2, c.y⟩).trailing
  then 3
  else 1

def envC6 : Env :=
  { bufferSize := ⟨80, 25⟩
    windowSizeY := 25
    kattrAt := fun c =>
      if c.x = 4 ∧ c.y = 0 then ⟨true, false⟩
      else if c.x = 5 ∧ c.y = 0 then ⟨false, true⟩
      else ⟨false, false⟩
    isDelimAt := fun _ => false
    legacyAttrs := 7
    cooked := none
    enableColorSelection := false }

def stC6 : ConsoleState :=
  { sel :=
      { selecting := true, areaSelected := false, mouseInitiated := false
        mouseButtonDown := false, lineSelection := false
        useAlternateSelection := false, keyboardMarkSelection := true
        visible := false, anchor := ⟨5, 0⟩, rect := ⟨5, 0, 5, 0⟩
        savedCursorPosition := ⟨5, 0⟩ }
    cursor := ⟨5, 0⟩
    cursorHasMoved := false }

/-- C6 counterexample: a single double-width glyph occupies columns 4-5
of row 0 and the cursor sits on column 5 (its trailing half, reachable
e.g. by vertical movement).  The cell immediately left (column 4) is a
leading half and the cell two left (column 3) is no glyph half, so the
claim's classification gives a Left step of 1, but the code steps 2
(the cursor moves from column 5 to column 3). -/
theorem c6_counterexample :
    markNextLeftX envC6 ⟨5, 0⟩ = 2 ∧
    c6ClaimLeftStep envC6 ⟨5, 0⟩ = 1 ∧
    (HandleMarkModeSelectionNav envC6 stC6 ⟨VK_LEFT, false, false, false⟩).2.cursor
      = ⟨3, 0⟩ := by decide

/-- C6 amended: the Right step is 2 exactly when the cell under the
cursor is a leading half, else 1; the Left step (cursor at column > 0) is
2 when the cell immediately left is a trailing half, and when the cell
immediately left is a leading half it is 3 or 2 according to whether the
cell two to the left is a trailing half (1 when the cursor is at column 1
so no such cell exists), and 1 when the cell immediately left is neither
half; at column 0 the cursor does not move left; otherwise Left moves the
cursor by exactly the Left step. -/
theorem c6_amended (env : Env) (st : ConsoleState) (c : Coord) :
    (markNextRightX env c = if (env.kattrAt c).leading then 2 else 1)
    ∧ (0 < c.x → markNextLeftX env c =
        (if (env.kattrAt ⟨c.x - 1, c.y⟩).trailing then 2
         else if (env.kattrAt ⟨c.x - 1, c.y⟩).leading then
           (if 1 < c.x then
              (if (env.kattrAt ⟨c.x - 2, c.y⟩).trailing then 3 else 2)
            else 1)
         else 1))
    ∧ (st.cursor.x = 0 →
        (HandleMarkModeSelectionNav env st ⟨VK_LEFT, false, false, false⟩).2.cursor
          = st.cursor)
    ∧ (0 < st.cursor.x →
        (HandleMarkModeSelectionNav env st ⟨VK_LEFT, false, false, false⟩).2.cursor
          = ⟨st.cursor.x - markNextLeftX env st.cursor, st.cursor.y⟩) := by
  refine ⟨rfl, ?_, ?_, ?_⟩
  · intro hx
    simp only [markNextLeftX, if_pos hx,
      show (0 < c.x - 1) ↔ (1 < c.x) from by omega]
  · intro hx
    simp only [HandleMarkModeSelectionNav, markMoveCursor, VK_LEFT, VK_RIGHT, VK_UP,
      VK_DOWN, VK_NEXT, VK_PRIOR, VK_END, VK_HOME, hx]
    norm_num
    split <;> rfl
  · intro hx
    simp only [HandleMarkModeSelectionNav, markMoveCursor, VK_LEFT, VK_RIGHT, VK_UP,
      VK_DOWN, VK_NEXT, VK_PRIOR, VK_END, VK_HOME, if_pos hx]
    norm_num
    split <;> rfl

theorem c6_witness :
    markNextLeftX envC6 ⟨1, 3⟩ =
      (if (envC6.kattrAt ⟨0, 3⟩).trailing then 2
       else if (envC6.kattrAt ⟨0, 3⟩).leading then
         (if (1 : Int) < 1 then (if (envC6.kattrAt ⟨-1, 3⟩).trailing then 3 else 2) else 1)
       else 1) :=
  (c6_amended envC6 stC6 ⟨1, 3⟩).2.1 (by decide)

/-- The color attribute carried by the requested external action. -/
def colorActionAttr : Option ColorAction → Option Nat
  | some (.colorSelection _ a) => some a
  | some (.searchAndColor _ a) => some a
  | none => none

/-- C7: for every digit key, the color selector returns handled exactly
when Alt or Ctrl is held; Ctrl is ignored under Alt; the attribute is
digit − '0' + 6, shifted into the high nibble with a zero foreground
nibble under Ctrl alone, and merged with the current background high
nibble in the low nibble under Alt. -/
theorem c7_color_attribute (env : Env) (st : ConsoleState) (k : KeyInfo)
    (h1 : 48 ≤ k.vk) (h2 : k.vk ≤ 57) :
    ((HandleColorSelection env st k).handled = (k.alt || k.ctrl))
    ∧ (k.alt = true →
        colorActionAttr (HandleColorSelection env st k).action =
          some ((k.vk - 48 + 6) ||| (env.legacyAttrs &&& 0xf0)))
    ∧ (k.alt = false → k.ctrl = true →
        colorActionAttr (HandleColorSelection env st k).action =
          some ((k.vk - 48 + 6) <<< 4) ∧
        ((k.vk - 48 + 6) <<< 4) % 16 = 0 ∧
        ((k.vk - 48 + 6) <<< 4) / 16 = k.vk - 48 + 6)
    ∧ (k.alt = false → k.ctrl = false →
        (HandleColorSelection env st k).action = none) := by
  refine ⟨?_, ?_, ?_, ?_⟩
  · cases ha : k.alt <;> cases hc : k.ctrl <;>
      simp [HandleColorSelection, ha, hc, colorActionAttr] <;> split <;> simp
  · intro ha
    simp only [HandleColorSelection, ha]
    split_ifs <;> first
      | contradiction
      | simp [colorActionAttr]
  · intro ha hc
    refine ⟨?_, ?_, ?_⟩
    · simp only [HandleColorSelection, ha, hc]
      split_ifs <;> first
        | contradiction
        | simp [colorActionAttr]
    · rw [Nat.shiftLeft_eq]
      omega
    · rw [Nat.shiftLeft_eq]
      omega
  · intro ha hc
    simp [HandleColorSelection, ha, hc]

theorem c7_witness :
    colorActionAttr (HandleColorSelection envC1 stC1 ⟨51, false, false, true⟩).action =
      some ((51 - 48 + 6) ||| (envC1.legacyAttrs &&& 0xf0)) :=
  (c7_color_attribute envC1 stC1 ⟨51, false, false, true⟩ (by decide) (by decide)).2.1 rfl

theorem lineSel_notHandled_state (env : Env) (st : ConsoleState) (k : KeyInfo) :
    (HandleKeyboardLineSelectionEvent env st k).1 ≠ .notHandled ∨
    HandleKeyboardLineSelectionEvent env st k = (.notHandled, st) := by
  unfold HandleKeyboardLineSelectionEvent
  split
  · right; rfl
  · left
    split
    · split
      · simp
      · simp [lineSelRest]
    · simp [lineSelRest]

/-- C8: when the selection is mouse-initiated, no mouse button is held,
the escape/copy/color block does not fire, the line-selection extender
does not handle the key and the key is not a system/modifier key, the
dispatcher clears the selection and still reports the event not
handled. -/
theorem c8_cancel_reports_not_handled (env : Env) (st : ConsoleState) (k : KeyInfo)
    (h1 : st.sel.mouseInitiated = true)
    (h2 : st.sel.mouseButtonDown = false)
    (h3 : ¬k.vk = VK_ESCAPE)
    (h4 : ¬(k.vk = VK_RETURN ∨ (k.ctrl = true ∧ (k.vk = 67 ∨ k.vk = VK_INSERT))))
    (h5 : ¬(env.enableColorSelection = true ∧ 48 ≤ k.vk ∧ k.vk ≤ 57))
    (h6 : st.sel.lineSelection = true →
      (HandleKeyboardLineSelectionEvent env st k).1 = .notHandled)
    (h7 : IsSystemKey k.vk = false) :
    HandleKeySelectionEvent env st k = (.eventNotHandled, ClearSelection st) := by
  have htail : dispatchTail env st k = (.eventNotHandled, ClearSelection st) := by
    unfold dispatchTail
    rw [h1, h2]
    simp only [Bool.not_true, Bool.false_eq_true, if_false, Bool.not_false, if_true]
    rcases hline : st.sel.lineSelection with _ | _
    · simp [h7]
    · rcases lineSel_notHandled_state env st k with hn | hn
      · exact absurd (h6 hline) hn
      · rw [hn]
        simp [h7]
  unfold HandleKeySelectionEvent
  rw [h2]
  simp only [Bool.not_false, if_true]
  rw [if_neg h3, if_neg ?hcopy]
  case hcopy =>
    simp only [Bool.or_eq_true, decide_eq_true_eq, Bool.and_eq_true]
    rintro (hr | ⟨hc, hck⟩)
    · exact h4 (Or.inl hr)
    · exact h4 (Or.inr ⟨hc, hck⟩)
  rw [if_neg ?hcolor]
  case hcolor =>
    simp only [Bool.and_eq_true, decide_eq_true_eq]
    rintro ⟨⟨he, hlo⟩, hhi⟩
    exact h5 ⟨he, hlo, hhi⟩
  exact htail

def stC8 : ConsoleState :=
  { sel :=
      { selecting := true, areaSelected := true, mouseInitiated := true
        mouseButtonDown := false, lineSelection := false
        useAlternateSelection := false, keyboardMarkSelection := false
        visible := true, anchor := ⟨2, 1⟩, rect := ⟨2, 1, 4, 1⟩
        savedCursorPosition := ⟨0, 0⟩ }
    cursor := ⟨0, 0⟩
    cursorHasMoved := false }

theorem c8_witness :
    HandleKeySelectionEvent envC1 stC8 ⟨65, false, false, false⟩ =
      (.eventNotHandled, ClearSelection stC8) :=
  c8_cancel_reports_not_handled envC1 stC8 ⟨65, false, false, false⟩ rfl rfl
    (by decide) (by decide) (by decide)
    (fun h => absurd h (by decide)) (by decide)

def stC9 : ConsoleState :=
  { sel :=
      { selecting := true, areaSelected := false, mouseInitiated := false
        mouseButtonDown := false, lineSelection := false
        useAlternateSelection := false, keyboardMarkSelection := false
        visible := false, anchor := ⟨5, 2⟩, rect := ⟨5, 2, 100, 2⟩
        savedCursorPosition := ⟨0, 0⟩ }
    cursor := ⟨0, 0⟩
    cursorHasMoved := false }

/-- C9: the color selector clips the stored selection rectangle in place
before deciding anything, so a call that returns unhandled (bare digit,
no Alt/Ctrl) can still change the persistent rectangle: here the stored
rectangle (5,2)-(100,2) in an 80-column buffer is clipped to
(5,2)-(79,2) although the key is reported not handled. -/
theorem c9_unhandled_still_clips :
    (HandleColorSelection envC5 stC9 ⟨51, false, false, false⟩).handled = false ∧
    (HandleColorSelection envC5 stC9 ⟨51, false, false, false⟩).state.sel.rect
      = ⟨5, 2, 79, 2⟩ ∧
    (HandleColorSelection envC5 stC9 ⟨51, false, false, false⟩).state.sel.rect
      ≠ stC9.sel.rect := by decide

def stC10 : ConsoleState :=
  { sel :=
      { selecting := true, areaSelected := false, mouseInitiated := false
        mouseButtonDown := false, lineSelection := false
        useAlternateSelection := true, keyboardMarkSelection := true
        visible := false, anchor := ⟨5, 0⟩, rect := ⟨5, 0, 5, 0⟩
        savedCursorPosition := ⟨5, 0⟩ }
    cursor := ⟨5, 0⟩
    cursorHasMoved := false }

/-- C10 counterexample: mark-mode navigation handles Right with Shift not
held from a state with no area selected but the alternate-selection flag
set; on return the alternate-selection flag is still set, not cleared as
the claim states. -/
theorem c10_counterexample :
    (HandleMarkModeSelectionNav envC1 stC10 ⟨VK_RIGHT, false, false, false⟩).1 = true ∧
    (HandleMarkModeSelectionNav envC1 stC10
        ⟨VK_RIGHT, false, false, false⟩).2.sel.useAlternateSelection = true := by
  decide

/-- C10 amended: whenever mark-mode navigation handles a movement key and
Shift is not held, on return the anchor equals the new cursor position,
the rectangle is the degenerate one-cell region there, the area-selected
flag is clear and the cursor's has-moved flag is set; the selection is
hidden and the alternate-selection flag cleared only when an area was
selected on entry (otherwise the visibility and alternate flags keep
their previous values). -/
theorem c10_anchor_reset (env : Env) (st : ConsoleState) (k : KeyInfo)
    (hk : k.vk = VK_RIGHT ∨ k.vk = VK_LEFT ∨ k.vk = VK_UP ∨ k.vk = VK_DOWN ∨
          k.vk = VK_NEXT ∨ k.vk = VK_PRIOR ∨ k.vk = VK_END ∨ k.vk = VK_HOME)
    (hs : k.shift = false) :
    (HandleMarkModeSelectionNav env st k).1 = true ∧
    (HandleMarkModeSelectionNav env st k).2.cursor = markMoveCursor env st k ∧
    (HandleMarkModeSelectionNav env st k).2.sel.anchor = markMoveCursor env st k ∧
    (HandleMarkModeSelectionNav env st k).2.sel.rect =
      ⟨(markMoveCursor env st k).x, (markMoveCursor env st k).y,
       (markMoveCursor env st k).x, (markMoveCursor env st k).y⟩ ∧
    (HandleMarkModeSelectionNav env st k).2.sel.areaSelected = false ∧
    (HandleMarkModeSelectionNav env st k).2.cursorHasMoved = true ∧
    (HandleMarkModeSelectionNav env st k).2.sel.useAlternateSelection =
      (if st.sel.areaSelected then false else st.sel.useAlternateSelection) ∧
    (HandleMarkModeSelectionNav env st k).2.sel.visible =
      (if st.sel.areaSelected then false else st.sel.visible) := by
  have hcond : (decide (k.vk = VK_RIGHT) || decide (k.vk = VK_LEFT) ||
      decide (k.vk = VK_UP) || decide (k.vk = VK_DOWN) || decide (k.vk = VK_NEXT) ||
      decide (k.vk = VK_PRIOR) || decide (k.vk = VK_END) || decide (k.vk = VK_HOME))
      = true := by
    rcases hk with h | h | h | h | h | h | h | h <;> simp [h]
  unfold HandleMarkModeSelectionNav
  rw [hcond]
  simp only [hs, if_true, Bool.false_eq_true, if_false]
  cases hA : st.sel.areaSelected <;> simp [hA]

theorem c10_witness :
    (HandleMarkModeSelectionNav envC1 stC8 ⟨VK_UP, false, false, false⟩).2.sel.areaSelected
      = false ∧
    (HandleMarkModeSelectionNav envC1 stC8
        ⟨VK_UP, false, false, false⟩).2.cursorHasMoved = true :=
  ⟨(c10_anchor_reset envC1 stC8 ⟨VK_UP, false, false, false⟩
      (Or.inr (Or.inr (Or.inl rfl))) rfl).2.2.2.2.1,
   (c10_anchor_reset envC1 stC8 ⟨VK_UP, false, false, false⟩
      (Or.inr (Or.inr (Or.inl rfl))) rfl).2.2.2.2.2.1⟩
